import Mathlib

/-!
# Verification of the Eventbrite-to-iCal aggregation core (`src/app.py`)

Shallow embedding of the `download_ical` handler of `src/app.py`:
the pagination loop (lines 147-181), the per-record normalization loop
(lines 190-252), the emptiness checks (lines 183-185 and 254-256), and a
spec-modelled calendar encoder (the serialization itself is performed by the
third-party `ics` library at line 261, outside this repository's source).

Raw upstream records are loosely-typed JSON objects; each structure below
carries exactly the fields the Python code reads, as `Option`s (a `none`
stands for an absent key, an absent/`null` intermediate object, or a value
whose lookup raises).  Python truthiness tests on string fields
(`if venue_address.get(field)`) are modelled by `truthyS`.
-/

namespace App

/-- One attendee object inside `order['attendees']`; the code reads only
`attendee.get('ticket_class_name')` (src/app.py line 239). -/
structure Attendee where
  ticket_class_name : Option String
deriving DecidableEq

/-- The `address` object nested in a venue; the code reads the six fields
`address_1 … country` (src/app.py line 217). -/
structure Address where
  address_1 : Option String
  address_2 : Option String
  city : Option String
  region : Option String
  postal_code : Option String
  country : Option String
deriving DecidableEq

/-- The `event['venue']` object.  `name` is present on upstream venue
objects but is never read by the code (only `venue.get('address', {})`
at src/app.py line 215). -/
structure Venue where
  name : Option String
  address : Option Address
deriving DecidableEq

/-- The expanded `order['event']` object, with exactly the fields
`download_ical` reads.  `name_text` is the string reached by
`event['name']['text']` (line 201), `none` when that lookup raises;
`start_utc` / `end_utc` are `event['start']['utc']` / `event['end']['utc']`
(lines 205-206), `none` when the nested key is absent;
`url` is `event.get('url', '')` before defaulting (lines 211, 244);
`description_text` is `event.get('description', {}).get('text')` (line 226). -/
structure RawEvent where
  name_text : Option String
  start_utc : Option String
  end_utc : Option String
  url : Option String
  venue : Option Venue
  description_text : Option String
deriving DecidableEq

/-- One raw order record.  `event` is `order.get('event')` (line 192,
`none` also covers a falsy empty object), `reference` is
`order.get('reference', 'N/A')` before defaulting (line 231), `attendees`
is `order.get('attendees', [])` (line 234). -/
structure RawOrder where
  event : Option RawEvent
  reference : Option String
  attendees : List Attendee
deriving DecidableEq

/-- Python truthiness of an optional string field: `None` and `''` are
falsy, every other string is truthy. -/
def truthyS (o : Option String) : Bool :=
  match o with
  | some s => s ≠ ""
  | none => false

/-- A parsed UTC timestamp as produced by
`datetime.strptime(_, '%Y-%m-%dT%H:%M:%SZ')` (src/app.py lines 205-206). -/
structure DT where
  year : Nat
  month : Nat
  day : Nat
  hour : Nat
  minute : Nat
  second : Nat
deriving DecidableEq

def digitVal (c : Char) : Option Nat :=
  if c.isDigit then some (c.toNat - 48) else none

def num2 (a b : Char) : Option Nat :=
  match digitVal a, digitVal b with
  | some x, some y => some (10 * x + y)
  | _, _ => none

def num4 (a b c d : Char) : Option Nat :=
  match num2 a b, num2 c d with
  | some x, some y => some (100 * x + y)
  | _, _ => none

def isLeapYear (y : Nat) : Bool :=
  (y % 4 = 0 && y % 100 ≠ 0) || y % 400 = 0

def daysInMonth (y m : Nat) : Nat :=
  if m = 2 then (if isLeapYear y then 29 else 28)
  else if m = 4 ∨ m = 6 ∨ m = 9 ∨ m = 11 then 30
  else 31

/-- `datetime.strptime(s, '%Y-%m-%dT%H:%M:%SZ')` (src/app.py lines 205-206),
as a total function: `none` when parsing raises `ValueError`.  The format is
taken in its strict fixed-width reading (4-2-2 digit date, 2-2-2 digit time,
literal `-`, `T`, `:`, `Z` separators) with `datetime`'s range validation:
year ≥ 1, month 1-12, day valid for the month (leap years included),
hour ≤ 23, minute ≤ 59, second ≤ 59. -/
def parseDT (s : String) : Option DT :=
  match s.toList with
  | [y1, y2, y3, y4, a1, mo1, mo2, a2, d1, d2, t1, h1, h2, b1, mi1, mi2, b2, e1, e2, z1] =>
    if a1 = '-' && a2 = '-' && t1 = 'T' && b1 = ':' && b2 = ':' && z1 = 'Z' then
      match num4 y1 y2 y3 y4, num2 mo1 mo2, num2 d1 d2, num2 h1 h2, num2 mi1 mi2, num2 e1 e2 with
      | some y, some mo, some d, some h, some mi, some se =>
        if 1 ≤ y ∧ 1 ≤ mo ∧ mo ≤ 12 ∧ 1 ≤ d ∧ d ≤ daysInMonth y mo ∧ h ≤ 23 ∧ mi ≤ 59 ∧ se ≤ 59
        then some ⟨y, mo, d, h, mi, se⟩
        else none
      | _, _, _, _, _, _ => none
    else none
  | _ => none

/-- The normalized event, i.e. the fields `download_ical` sets on the
`ics.Event` object (src/app.py lines 200-245): `name`, `begin`, `end`,
`url`, optionally `location`, and `description`. -/
structure CanonicalEvent where
  name : String
  «begin» : DT
  «end» : DT
  url : String
  location : Option String
  description : String
deriving DecidableEq

/-- The per-record body of the `for order in all_orders` loop
(src/app.py lines 190-252), as a total function: `some` is the event added
to the calendar, `none` means the record was skipped by one of the
`continue` paths (no event payload, line 195; a raised lookup such as
`event['name']['text']` caught by the outer handler, lines 250-252; a date
lookup/parse failure caught at lines 207-209). -/
def normalize (order : RawOrder) : Option CanonicalEvent :=
  match order.event with
  | none => none
  | some event =>
    match event.name_text with
    | none => none
    | some name =>
      match event.start_utc with
      | none => none
      | some startS =>
        match parseDT startS with
        | none => none
        | some startDT =>
          match event.end_utc with
          | none => none
          | some endS =>
            match parseDT endS with
            | none => none
            | some endDT =>
              let url := event.url.getD ""
              let location :=
                match event.venue with
                | none => none
                | some venue =>
                  let venue_address := venue.address.getD ⟨none, none, none, none, none, none⟩
                  let address_parts :=
                    [venue_address.address_1, venue_address.address_2, venue_address.city,
                     venue_address.region, venue_address.postal_code,
                     venue_address.country].filterMap
                      (fun f => if truthyS f then f else none)
                  if address_parts.isEmpty then none
                  else some (String.intercalate ", " address_parts)
              let description_parts :=
                (if truthyS event.description_text then [event.description_text.getD ""] else [])
                ++ ["\nOrder Information:", "Order #: " ++ order.reference.getD "N/A"]
                ++ (if order.attendees.isEmpty then []
                    else "\nTicket Information:" ::
                      order.attendees.filterMap (fun attendee =>
                        if truthyS attendee.ticket_class_name then
                          some (" - " ++ ("Type: " ++ attendee.ticket_class_name.getD ""))
                        else none))
                ++ ["\nEvent URL: " ++ event.url.getD ""]
              some { name := name, «begin» := startDT, «end» := endDT, url := url,
                     location := location,
                     description := String.intercalate "\n" description_parts }

/-- The `pagination` object of an orders response; the code reads
`pagination.get('continuation')` (src/app.py line 178). -/
structure Pagination where
  continuation : Option String
deriving DecidableEq

/-- One upstream HTTP response to `GET /v3/users/me/orders/`
(src/app.py lines 157-178): its status code, raw body text (used in the
error payload at line 168), the `orders` list (`none` when the key is
absent or `null`), and the `pagination` object. -/
structure PageResponse where
  status_code : Nat
  body_text : String
  orders : Option (List RawOrder)
  pagination : Option Pagination
deriving DecidableEq

/-- The records a page contributes to `all_orders`
(`if orders_data.get('orders'): all_orders.extend(...)`,
src/app.py lines 173-174): the `orders` list when it is truthy
(present and non-empty), nothing otherwise. -/
def ordersOf (r : PageResponse) : List RawOrder :=
  match r.orders with
  | some os => if os.isEmpty then [] else os
  | none => []

/-- The continuation token taken from a page
(`pagination = orders_data.get('pagination', {});
continuation_token = pagination.get('continuation')`, src/app.py
lines 177-178), already folded with the truthiness test of the loop exit
`if not continuation_token: break` (line 180): `none` means the loop
breaks (absent pagination object, absent token, or empty-string token). -/
def contOf (r : PageResponse) : Option String :=
  let pagination := r.pagination.getD ⟨none⟩
  match pagination.continuation with
  | some t => if t = "" then none else some t
  | none => none

/-- Outcome of the `while True` pagination loop (src/app.py lines 147-181):
normal exit with the accumulated `all_orders`, the early `return` with the
upstream status and body on a non-200 response (lines 165-169), or fuel
exhaustion (the Python loop would still be running). -/
inductive FetchResult where
  | ok (all_orders : List RawOrder)
  | httpError (status_code : Nat) (body : String)
  | fuelOut
deriving DecidableEq

/-- The pagination loop of `download_ical` (src/app.py lines 147-181).
The upstream API is modelled as a function `up` from the optional
`continuation` query parameter to the response (the code sends no
continuation on the first request, line 152-153).  `fuel` bounds the
number of iterations; the Python loop has no bound, so a run that would
iterate forever is every `fuel`-run ending in `fuelOut`. -/
def fetchLoop (up : Option String → PageResponse) :
    Nat → Option String → List RawOrder → FetchResult
  | 0, _, _ => .fuelOut
  | fuel + 1, cursor, all_orders =>
    let r := up cursor
    if r.status_code ≠ 200 then .httpError r.status_code r.body_text
    else
      match contOf r with
      | none => .ok (all_orders ++ ordersOf r)
      | some t => fetchLoop up fuel (some t) (all_orders ++ ordersOf r)

/-- The cursors (optional `continuation` parameters) actually sent
upstream by `fetchLoop up fuel cursor _`, in request order.  The trace does
not depend on the accumulator and stops where the loop stops: after a
non-200 response or after the page whose continuation token is falsy. -/
def fetchTrace (up : Option String → PageResponse) :
    Nat → Option String → List (Option String)
  | 0, _ => []
  | fuel + 1, cursor =>
    cursor ::
      (if (up cursor).status_code ≠ 200 then []
       else
         match contOf (up cursor) with
         | none => []
         | some t => fetchTrace up fuel (some t))

/-- The structured failures of `download_ical`'s core (spec §4.3/§7):
`upstream s b` is the early `return jsonify({'error': 'Failed to fetch
orders', 'details': b}), s` (src/app.py lines 165-169); `noTickets` is
`return jsonify({'error': 'No tickets found'}), 404` (lines 183-185,
the spec's `EmptyBatchError`); `noValidEvents` is
`return jsonify({'error': 'No valid events found'}), 404` (lines 254-256,
the spec's `NoValidEventsError`). -/
inductive BuildError where
  | upstream (status_code : Nat) (body : String)
  | noTickets
  | noValidEvents
deriving DecidableEq

/-- The spec's Batch (§3): the ordered events added to the calendar plus
the number of records dropped by the skip paths.  The code materializes the
events (`calendar.events`, src/app.py line 247) and only logs the skipped
records; `skipped` is the count of orders for which the loop body reached a
`continue`. -/
structure Batch where
  events : List CanonicalEvent
  skipped : Nat
deriving DecidableEq

/-- Decidable equality for aggregation outcomes, so that concrete runs can
be checked by evaluation. -/
instance : DecidableEq (Except BuildError Batch) := fun a b =>
  match a, b with
  | .ok x, .ok y => decidable_of_iff (x = y) (by simp)
  | .error x, .error y => decidable_of_iff (x = y) (by simp)
  | .ok _, .error _ => isFalse (by simp)
  | .error _, .ok _ => isFalse (by simp)

/-- The aggregation core of `download_ical` (src/app.py lines 147-256):
run the pagination loop, then the emptiness check on `all_orders`
(lines 183-185), then the per-record loop (lines 190-252, `normalize`),
then the emptiness check on the produced events (lines 254-256).
`none` stands for the diverging run (fuel exhausted). -/
def buildBatch (up : Option String → PageResponse) (fuel : Nat) :
    Option (Except BuildError Batch) :=
  match fetchLoop up fuel none [] with
  | .fuelOut => none
  | .httpError s b => some (.error (.upstream s b))
  | .ok all_orders =>
    if all_orders.isEmpty then some (.error .noTickets)
    else
      let events := all_orders.filterMap normalize
      if events.isEmpty then some (.error .noValidEvents)
      else some (.ok ⟨events, all_orders.countP (fun o => (normalize o).isNone)⟩)

/-- Zero-padded decimal rendering used by the modelled encoder. -/
def padNum (width n : Nat) : String :=
  let s := toString n
  ⟨List.replicate (width - s.length) '0'⟩ ++ s

/-- Calendar timestamp rendering `YYYYMMDDTHHMMSSZ` for the modelled
encoder. -/
def fmtDT (d : DT) : String :=
  padNum 4 d.year ++ padNum 2 d.month ++ padNum 2 d.day ++ "T" ++
    padNum 2 d.hour ++ padNum 2 d.minute ++ padNum 2 d.second ++ "Z"

/-- Text escaping per the calendar format (spec §6): escape `\`, `,`, `;`
and newlines. -/
def escText (s : String) : String :=
  ⟨s.toList.foldr (fun c acc =>
    if c = '\\' then '\\' :: '\\' :: acc
    else if c = ',' then '\\' :: ',' :: acc
    else if c = ';' then '\\' :: ';' :: acc
    else if c = '\n' then '\\' :: 'n' :: acc
    else c :: acc) []⟩

/-- Modelled from the spec: one VEVENT block of the Calendar Encoder
(spec §4.4).  The serialization in the code is `str(calendar)` from the
third-party `ics` library (src/app.py line 261), which is not part of this
repository's source; this block follows the spec's contract: a unique
identifier synthesized from title+start, start/end in UTC, summary = title,
and location/description/url emitted only when present. -/
def encodeEvent (e : CanonicalEvent) : String :=
  "BEGIN:VEVENT\r\n" ++
  "UID:" ++ escText e.name ++ "-" ++ fmtDT e.«begin» ++ "\r\n" ++
  "DTSTART:" ++ fmtDT e.«begin» ++ "\r\n" ++
  "DTEND:" ++ fmtDT e.«end» ++ "\r\n" ++
  "SUMMARY:" ++ escText e.name ++ "\r\n" ++
  (match e.location with
   | some loc => "LOCATION:" ++ escText loc ++ "\r\n"
   | none => "") ++
  (if e.description = "" then "" else "DESCRIPTION:" ++ escText e.description ++ "\r\n") ++
  (if e.url = "" then "" else "URL:" ++ escText e.url ++ "\r\n") ++
  "END:VEVENT\r\n"

/-- Modelled from the spec: the Calendar Encoder (spec §4.4), one VEVENT
block per event inside a VCALENDAR wrapper, in input order.  The code
delegates this to the third-party `ics` library (src/app.py lines 260-261),
which is outside this repository's source. -/
def encode (events : List CanonicalEvent) : String :=
  "BEGIN:VCALENDAR\r\nVERSION:2.0\r\nPRODID:Eventbrite to iCal Converter\r\n" ++
  String.join (events.map encodeEvent) ++
  "END:VCALENDAR\r\n"

/-- The ambient process state an encoder call could in principle observe:
the wall clock at call time and a random seed.  Used to state that the
encoder's output draws on neither. -/
structure EncodeCtx where
  wall_clock : DT
  rng_seed : Nat

/-- Modelled from the spec: an `encode` call made in ambient state `ctx`.
Per spec §4.4/§8 the encoder embeds no wall-clock timestamp and no
randomness, so the ambient state is not consulted. -/
def encodeAtCtx (_ctx : EncodeCtx) (events : List CanonicalEvent) : String :=
  encode events

/-! ## Concrete inputs used by the witnesses and counterexamples -/

/-- A success page with no records and no continuation token; also the
response used for cursors a concrete scenario never sends. -/
def emptyPage : PageResponse :=
  { status_code := 200, body_text := "", orders := none, pagination := none }

/-- C1: an event payload with a title and a parseable start but no `end`
field at all. -/
def c1event : RawEvent :=
  { name_text := some "Concert", start_utc := some "2024-05-01T10:00:00Z",
    end_utc := none, url := some "https://example.com/e/1", venue := none,
    description_text := none }

/-- C1: an otherwise-valid order record whose event has no end timestamp. -/
def c1raw : RawOrder :=
  { event := some c1event, reference := some "REF1", attendees := [] }

/-- C2: a valid raw record, deliberately used twice in the same upload to
show that duplicates are kept. -/
def c2raw : RawOrder :=
  { event := some
      { name_text := some "Meetup", start_utc := some "2024-06-10T18:00:00Z",
        end_utc := some "2024-06-10T20:00:00Z", url := some "https://example.com/e/2",
        venue := none, description_text := none },
    reference := some "R2", attendees := [] }

/-- C2: two pages — page one holds the same record twice, page two holds it
once more and carries the no-more-pages sentinel. -/
def c2up (c : Option String) : PageResponse :=
  match c with
  | none => { status_code := 200, body_text := "", orders := some [c2raw, c2raw],
              pagination := some ⟨some "c2page2"⟩ }
  | some s =>
    if s = "c2page2" then
      { status_code := 200, body_text := "", orders := some [c2raw], pagination := some ⟨none⟩ }
    else emptyPage

/-- C3 (Scenario A): first valid record of page one. -/
def c3valid1 : RawOrder :=
  { event := some
      { name_text := some "Talk A", start_utc := some "2024-07-01T09:00:00Z",
        end_utc := some "2024-07-01T10:00:00Z", url := none, venue := none,
        description_text := none },
    reference := some "A1", attendees := [] }

/-- C3 (Scenario A): second valid record of page one. -/
def c3valid2 : RawOrder :=
  { event := some
      { name_text := some "Talk B", start_utc := some "2024-07-02T09:00:00Z",
        end_utc := some "2024-07-02T10:00:00Z", url := none, venue := none,
        description_text := none },
    reference := some "A2", attendees := [] }

/-- C3 (Scenario A): the record of page two whose event has no title
(`event['name']['text']` raises). -/
def c3bad : RawOrder :=
  { event := some
      { name_text := none, start_utc := some "2024-07-03T09:00:00Z",
        end_utc := some "2024-07-03T10:00:00Z", url := none, venue := none,
        description_text := none },
    reference := some "A3", attendees := [] }

/-- C3 (Scenario A): page one returns the two valid records, page two
(final) returns the record missing a title. -/
def c3up (c : Option String) : PageResponse :=
  match c with
  | none => { status_code := 200, body_text := "", orders := some [c3valid1, c3valid2],
              pagination := some ⟨some "c3page2"⟩ }
  | some s =>
    if s = "c3page2" then
      { status_code := 200, body_text := "", orders := some [c3bad], pagination := some ⟨none⟩ }
    else emptyPage

/-- C4: an event payload with no description text and no `url` key (so the
defaulted URL is empty). -/
def c4event : RawEvent :=
  { name_text := some "Plain", start_utc := some "2024-08-01T09:00:00Z",
    end_utc := some "2024-08-01T11:00:00Z", url := none, venue := none,
    description_text := none }

/-- C4: a record with no description text, no order reference, no
attendees, and no `url` key (so the defaulted URL is empty): none of the
claim's optional sections has source data. -/
def c4raw : RawOrder :=
  { event := some c4event, reference := none, attendees := [] }

/-- C4: the event the code produces for `c4raw`. -/
def c4canon : CanonicalEvent :=
  { name := "Plain", «begin» := ⟨2024, 8, 1, 9, 0, 0⟩, «end» := ⟨2024, 8, 1, 11, 0, 0⟩,
    url := "", location := none,
    description := "\nOrder Information:\nOrder #: N/A\n\nEvent URL: " }

/-- C5: an event payload whose venue has a name and an address with only
the city populated. -/
def c5event : RawEvent :=
  { name_text := some "Gala", start_utc := some "2024-09-01T19:00:00Z",
    end_utc := some "2024-09-01T23:00:00Z", url := none,
    venue := some
      { name := some "The Hall",
        address := some
          { address_1 := none, address_2 := none, city := some "Paris",
            region := none, postal_code := none, country := none } },
    description_text := none }

/-- C5: a record whose venue has a name and an address with only the city
populated. -/
def c5raw : RawOrder :=
  { event := some c5event, reference := none, attendees := [] }

/-- C5: the event the code produces for `c5raw`; its location is the city
string alone. -/
def c5canon : CanonicalEvent :=
  { name := "Gala", «begin» := ⟨2024, 9, 1, 19, 0, 0⟩, «end» := ⟨2024, 9, 1, 23, 0, 0⟩,
    url := "", location := some "Paris",
    description := "\nOrder Information:\nOrder #: N/A\n\nEvent URL: " }

/-- C6 (Scenario C): a valid record returned by page one. -/
def c6raw : RawOrder :=
  { event := some
      { name_text := some "Workshop", start_utc := some "2024-10-01T09:00:00Z",
        end_utc := some "2024-10-01T17:00:00Z", url := none, venue := none,
        description_text := none },
    reference := some "W1", attendees := [] }

/-- C6 (Scenario C): page one succeeds with one record, page two answers
HTTP 401. -/
def c6up (c : Option String) : PageResponse :=
  match c with
  | none => { status_code := 200, body_text := "", orders := some [c6raw],
              pagination := some ⟨some "c6page2"⟩ }
  | some s =>
    if s = "c6page2" then
      { status_code := 401, body_text := "unauthorized", orders := none, pagination := none }
    else emptyPage

/-- C7 (Scenario B): a single page with zero records and the sentinel. -/
def c7upEmpty (c : Option String) : PageResponse :=
  match c with
  | none => { status_code := 200, body_text := "", orders := some [], pagination := some ⟨none⟩ }
  | some _ => emptyPage

/-- C7: a record with no event payload, so its normalization fails. -/
def c7bad : RawOrder := { event := none, reference := some "B1", attendees := [] }

/-- C7: a single page whose only record fails normalization. -/
def c7upInvalid (c : Option String) : PageResponse :=
  match c with
  | none => { status_code := 200, body_text := "", orders := some [c7bad],
              pagination := some ⟨none⟩ }
  | some _ => emptyPage

/-- C8: three pages chained by continuation tokens, the last carrying the
no-more-pages sentinel. -/
def c8up (c : Option String) : PageResponse :=
  match c with
  | none => { status_code := 200, body_text := "", orders := some [c6raw],
              pagination := some ⟨some "c8page2"⟩ }
  | some s =>
    if s = "c8page2" then
      { status_code := 200, body_text := "", orders := none, pagination := some ⟨some "c8page3"⟩ }
    else if s = "c8page3" then
      { status_code := 200, body_text := "", orders := some [c2raw], pagination := some ⟨none⟩ }
    else emptyPage

/-- C10: page one is a success response whose body has no `orders` key; it
still carries a continuation token.  Page two returns one record and the
sentinel. -/
def c10up (c : Option String) : PageResponse :=
  match c with
  | none => { status_code := 200, body_text := "", orders := none,
              pagination := some ⟨some "c10page2"⟩ }
  | some s =>
    if s = "c10page2" then
      { status_code := 200, body_text := "", orders := some [c6raw], pagination := some ⟨none⟩ }
    else emptyPage

/-- The concatenation, in request order, of the records contributed by
each page the loop fetches: the reference order against which the batch's
event order is compared. -/
def pagesConcat (up : Option String → PageResponse) (fuel : Nat) (c : Option String) :
    List RawOrder :=
  ((fetchTrace up fuel c).map fun d => ordersOf (up d)).flatten

/-! ## Lemmas about the pagination loop -/

theorem fetchLoop_ok_char (up : Option String → PageResponse) :
    ∀ (fuel : Nat) (c : Option String) (acc os : List RawOrder),
      fetchLoop up fuel c acc = .ok os →
      os = acc ++ pagesConcat up fuel c ∧
      ∀ acc2, fetchLoop up fuel c acc2 = .ok (acc2 ++ pagesConcat up fuel c) := by
  intro fuel
  induction fuel with
  | zero => intro c acc os h; simp [fetchLoop] at h
  | succ n ih =>
    intro c acc os h
    by_cases hs : (up c).status_code = 200
    · cases hcont : contOf (up c) with
      | none =>
        simp [fetchLoop, hs, hcont] at h
        subst h
        constructor
        · simp [pagesConcat, fetchTrace, hs, hcont]
        · intro acc2
          simp [fetchLoop, hs, hcont, pagesConcat, fetchTrace]
      | some t =>
        simp [fetchLoop, hs, hcont] at h
        obtain ⟨h1, h2⟩ := ih (some t) (acc ++ ordersOf (up c)) os h
        constructor
        · rw [h1]
          simp [pagesConcat, fetchTrace, hs, hcont]
        · intro acc2
          have h3 := h2 (acc2 ++ ordersOf (up c))
          simp [fetchLoop, hs, hcont, h3, pagesConcat, fetchTrace]
    · simp [fetchLoop, hs] at h

theorem fetchLoop_succ (up : Option String → PageResponse) (fuel : Nat)
    (c : Option String) (acc : List RawOrder) :
    fetchLoop up (fuel + 1) c acc =
      if (up c).status_code ≠ 200 then .httpError (up c).status_code (up c).body_text
      else
        match contOf (up c) with
        | none => .ok (acc ++ ordersOf (up c))
        | some t => fetchLoop up fuel (some t) (acc ++ ordersOf (up c)) := rfl

theorem fetchTrace_succ (up : Option String → PageResponse) (fuel : Nat)
    (c : Option String) :
    fetchTrace up (fuel + 1) c =
      c :: (if (up c).status_code ≠ 200 then []
            else
              match contOf (up c) with
              | none => []
              | some t => fetchTrace up fuel (some t)) := rfl

theorem fetchLoop_ok_stable (up : Option String → PageResponse) :
    ∀ (fuel : Nat) (c : Option String) (acc os : List RawOrder),
      fetchLoop up fuel c acc = .ok os →
      fetchLoop up (fuel + 1) c acc = .ok os ∧
      fetchTrace up (fuel + 1) c = fetchTrace up fuel c := by
  intro fuel
  induction fuel with
  | zero => intro c acc os h; simp [fetchLoop] at h
  | succ n ih =>
    intro c acc os h
    rw [fetchLoop_succ] at h
    rw [fetchLoop_succ, fetchTrace_succ up (n + 1), fetchTrace_succ up n]
    by_cases hs : (up c).status_code = 200
    · have hs2 : ¬((up c).status_code ≠ 200) := by simp [hs]
      rw [if_neg hs2] at h
      simp only [if_neg hs2]
      cases hcont : contOf (up c) with
      | none => simp only [hcont] at h ⊢; exact ⟨h, trivial⟩
      | some t =>
        simp only [hcont] at h ⊢
        obtain ⟨h1, h2⟩ := ih (some t) (acc ++ ordersOf (up c)) os h
        exact ⟨h1, by rw [h2]⟩
    · have hs2 : (up c).status_code ≠ 200 := hs
      rw [if_pos hs2] at h
      exact absurd h (by simp)

theorem fetchLoop_ok_of_le (up : Option String → PageResponse)
    {fuel m : Nat} (hle : fuel ≤ m) {c : Option String} {acc os : List RawOrder}
    (h : fetchLoop up fuel c acc = .ok os) :
    fetchLoop up m c acc = .ok os ∧ fetchTrace up m c = fetchTrace up fuel c := by
  induction m with
  | zero =>
    have hz : fuel = 0 := Nat.le_zero.mp hle
    subst hz
    exact ⟨h, rfl⟩
  | succ k ih =>
    rcases Nat.lt_or_ge fuel (k + 1) with hlt | hge
    · have hk : fuel ≤ k := Nat.lt_succ_iff.mp hlt
      obtain ⟨h1, h2⟩ := ih hk
      obtain ⟨h3, h4⟩ := fetchLoop_ok_stable up k c acc os h1
      exact ⟨h3, h4.trans h2⟩
    · have heq : fuel = k + 1 := Nat.le_antisymm hle hge
      subst heq
      exact ⟨h, rfl⟩

theorem fetchTrace_mem_ok (up : Option String → PageResponse) :
    ∀ (fuel : Nat) (c : Option String) (os : List RawOrder),
      fetchLoop up fuel c [] = .ok os →
      ∀ d ∈ fetchTrace up fuel c,
        (∃ os2, fetchLoop up fuel d [] = .ok os2) ∧
        (fetchTrace up fuel d).length ≤ (fetchTrace up fuel c).length := by
  intro fuel
  induction fuel with
  | zero => intro c os h; simp [fetchLoop] at h
  | succ n ih =>
    intro c os h d hd
    rw [fetchLoop_succ] at h
    rw [fetchTrace_succ] at hd
    by_cases hs : (up c).status_code = 200
    · have hs2 : ¬((up c).status_code ≠ 200) := by simp [hs]
      rw [if_neg hs2] at h
      rw [if_neg hs2] at hd
      cases hcont : contOf (up c) with
      | none =>
        simp only [hcont] at h hd
        simp only [List.mem_singleton] at hd
        subst hd
        refine ⟨⟨os, ?_⟩, Nat.le_refl _⟩
        rw [fetchLoop_succ, if_neg hs2]
        simp only [hcont]
        simpa using h
      | some t =>
        simp only [hcont] at h hd
        rcases List.mem_cons.mp hd with hdc | hdrest
        · subst hdc
          refine ⟨⟨os, ?_⟩, Nat.le_refl _⟩
          rw [fetchLoop_succ, if_neg hs2]
          simp only [hcont]
          exact h
        · obtain ⟨hos0, _⟩ := fetchLoop_ok_char up n (some t) (ordersOf (up c)) os
            (by simpa using h)
          have hok0 : fetchLoop up n (some t) [] = .ok (pagesConcat up n (some t)) := by
            have := (fetchLoop_ok_char up n (some t) (ordersOf (up c)) os
              (by simpa using h)).2 []
            simpa using this
          obtain ⟨⟨os2, hok2⟩, hlen⟩ := ih (some t) (pagesConcat up n (some t)) hok0 d hdrest
          obtain ⟨hok3, htr3⟩ := fetchLoop_ok_stable up n d [] os2 hok2
          refine ⟨⟨os2, hok3⟩, ?_⟩
          rw [htr3, fetchTrace_succ up n c, if_neg hs2]
          simp only [hcont]
          calc (fetchTrace up n d).length ≤ (fetchTrace up n (some t)).length := hlen
            _ ≤ (c :: fetchTrace up n (some t)).length := by simp
    · have hs2 : (up c).status_code ≠ 200 := hs
      rw [if_pos hs2] at h
      exact absurd h (by simp)

theorem fetchTrace_nodup (up : Option String → PageResponse) :
    ∀ (fuel : Nat) (c : Option String) (os : List RawOrder),
      fetchLoop up fuel c [] = .ok os → (fetchTrace up fuel c).Nodup := by
  intro fuel
  induction fuel with
  | zero => intro c os h; simp [fetchLoop] at h
  | succ n ih =>
    intro c os h
    rw [fetchLoop_succ] at h
    rw [fetchTrace_succ]
    by_cases hs : (up c).status_code = 200
    · have hs2 : ¬((up c).status_code ≠ 200) := by simp [hs]
      rw [if_neg hs2] at h
      rw [if_neg hs2]
      cases hcont : contOf (up c) with
      | none => simp [hcont]
      | some t =>
        simp only [hcont] at h ⊢
        have hok0 : fetchLoop up n (some t) [] = .ok (pagesConcat up n (some t)) := by
          have := (fetchLoop_ok_char up n (some t) (ordersOf (up c)) os h).2 []
          simpa using this
        refine List.nodup_cons.mpr ⟨?_, ih (some t) (pagesConcat up n (some t)) hok0⟩
        intro hmem
        obtain ⟨⟨os2, hok2⟩, hlen⟩ :=
          fetchTrace_mem_ok up n (some t) (pagesConcat up n (some t)) hok0 c hmem
        obtain ⟨_, htr⟩ := fetchLoop_ok_stable up n c [] os2 hok2
        have hgrow : fetchTrace up (n + 1) c = c :: fetchTrace up n (some t) := by
          rw [fetchTrace_succ, if_neg hs2]
          simp only [hcont]
        rw [htr] at hgrow
        have : (fetchTrace up n c).length = (fetchTrace up n (some t)).length + 1 := by
          rw [hgrow]; simp
        omega
    · have hs2 : (up c).status_code ≠ 200 := hs
      rw [if_pos hs2] at h
      exact absurd h (by simp)

theorem fetchTrace_last_sentinel (up : Option String → PageResponse) :
    ∀ (fuel : Nat) (c : Option String) (acc os : List RawOrder),
      fetchLoop up fuel c acc = .ok os →
      ∃ d, (fetchTrace up fuel c).getLast? = some d ∧ contOf (up d) = none := by
  intro fuel
  induction fuel with
  | zero => intro c acc os h; simp [fetchLoop] at h
  | succ n ih =>
    intro c acc os h
    rw [fetchLoop_succ] at h
    rw [fetchTrace_succ]
    by_cases hs : (up c).status_code = 200
    · have hs2 : ¬((up c).status_code ≠ 200) := by simp [hs]
      rw [if_neg hs2] at h
      rw [if_neg hs2]
      cases hcont : contOf (up c) with
      | none => exact ⟨c, by simp, hcont⟩
      | some t =>
        simp only [hcont] at h ⊢
        obtain ⟨d, hd1, hd2⟩ := ih (some t) (acc ++ ordersOf (up c)) os h
        refine ⟨d, ?_, hd2⟩
        have hne : fetchTrace up n (some t) ≠ [] := by
          intro hnil
          rw [hnil] at hd1
          simp at hd1
        cases htr : fetchTrace up n (some t) with
        | nil => exact absurd htr hne
        | cons x xs =>
          rw [htr] at hd1
          simpa [List.getLast?] using hd1
    · have hs2 : (up c).status_code ≠ 200 := hs
      rw [if_pos hs2] at h
      exact absurd h (by simp)

theorem fetchLoop_mem_httpError (up : Option String → PageResponse) :
    ∀ (fuel : Nat) (c : Option String) (d : Option String),
      d ∈ fetchTrace up fuel c → (up d).status_code ≠ 200 →
      ∀ acc, fetchLoop up fuel c acc = .httpError (up d).status_code (up d).body_text := by
  intro fuel
  induction fuel with
  | zero => intro c d hd; simp [fetchTrace] at hd
  | succ n ih =>
    intro c d hd hbad acc
    rw [fetchTrace_succ] at hd
    rw [fetchLoop_succ]
    by_cases hs : (up c).status_code = 200
    · have hs2 : ¬((up c).status_code ≠ 200) := by simp [hs]
      rw [if_neg hs2] at hd
      rw [if_neg hs2]
      cases hcont : contOf (up c) with
      | none =>
        simp only [hcont] at hd
        simp only [List.mem_singleton] at hd
        subst hd
        exact absurd hs hbad
      | some t =>
        simp only [hcont] at hd ⊢
        rcases List.mem_cons.mp hd with hdc | hdrest
        · subst hdc; exact absurd hs hbad
        · exact ih (some t) d hdrest hbad (acc ++ ordersOf (up c))
    · have hs2 : (up c).status_code ≠ 200 := hs
      rw [if_pos hs2] at hd
      simp only [List.mem_singleton] at hd
      subst hd
      rw [if_pos hs2]

theorem normalize_length_split (os : List RawOrder) :
    (os.filterMap normalize).length + os.countP (fun o => (normalize o).isNone) = os.length := by
  induction os with
  | nil => rfl
  | cons a t ih =>
    cases h : normalize a with
    | none => simp [List.countP_cons, h]; omega
    | some e => simp [List.countP_cons, h]; omega

/-! ## Claim theorems -/

/-- C1, counterexample: `c1raw` is otherwise valid — its event payload is
present, the title is present, the start timestamp parses — but has no end
field at all, and the code drops it (`event['end']['utc']` raises and the
`except` at src/app.py lines 207-209 hits `continue`), instead of
producing an event with `end = start` as the claim states. -/
theorem c1_counterexample :
    c1raw.event = some c1event ∧
    c1event.name_text = some "Concert" ∧
    parseDT "2024-05-01T10:00:00Z" = some ⟨2024, 5, 1, 10, 0, 0⟩ ∧
    c1event.end_utc = none ∧
    normalize c1raw = none := by decide

/-- C1, amended: a raw record whose event payload has no end timestamp
field fails normalization and is dropped, whatever its other fields are;
`end` is never defaulted to `start` (src/app.py lines 206-209). -/
theorem c1_missing_end_dropped (order : RawOrder) (event : RawEvent)
    (he : order.event = some event) (hend : event.end_utc = none) :
    normalize order = none := by
  obtain ⟨nt, st, et, u, v, dt⟩ := event
  obtain rfl : et = none := hend
  simp only [normalize, he]
  cases nt with
  | none => simp
  | some name =>
    cases st with
    | none => simp
    | some s =>
      cases hp : parseDT s with
      | none => simp [hp]
      | some d => simp [hp]

/-- C1, witness for the amended theorem at the concrete record `c1raw`. -/
theorem c1_missing_end_dropped_witness : normalize c1raw = none :=
  c1_missing_end_dropped c1raw c1event rfl rfl

/-- C2: when the pagination loop completes normally, the accumulated
records are exactly the concatenation, in fetch order, of the records of
each fetched page, and the batch's events are the in-order `filterMap` of
`normalize` over that concatenation: order preserved within and across
pages, no reordering, no deduplication (duplicate records stay duplicate
positions of the list). -/
theorem c2_order_preserved (up : Option String → PageResponse) (fuel : Nat)
    (os : List RawOrder) (h : fetchLoop up fuel none [] = .ok os) :
    os = pagesConcat up fuel none ∧
    ∀ b, buildBatch up fuel = some (.ok b) → b.events = os.filterMap normalize := by
  have hchar := fetchLoop_ok_char up fuel none [] os h
  refine ⟨by simpa using hchar.1, ?_⟩
  intro b hb
  simp only [buildBatch, h] at hb
  by_cases hemp : os.isEmpty
  · simp [hemp] at hb
  · simp only [hemp, if_false, Bool.false_eq_true] at hb
    by_cases hval : (os.filterMap normalize).isEmpty
    · simp [hval] at hb
    · simp only [hval, if_false, Bool.false_eq_true, Option.some.injEq] at hb
      have := congrArg Batch.events (Except.ok.inj hb)
      simpa using this.symm

/-- C2, witness: three pages worth of records containing the same record
three times produce three events in concatenation order. -/
theorem c2_order_preserved_witness :
    ([c2raw, c2raw, c2raw] = pagesConcat c2up 3 none ∧
      ∀ b, buildBatch c2up 3 = some (.ok b) →
        b.events = [c2raw, c2raw, c2raw].filterMap normalize) ∧
    ([c2raw, c2raw, c2raw].filterMap normalize).length = 3 :=
  ⟨c2_order_preserved c2up 3 [c2raw, c2raw, c2raw] (by decide), by decide⟩

/-- C3: when the loop completes with at least one record and at least one
record survives normalization, the batch holds exactly the surviving
events, its `skipped` field counts the records dropped by normalization
failure, and surviving plus skipped records account for every record. -/
theorem c3_batch_skip_count (up : Option String → PageResponse) (fuel : Nat)
    (os : List RawOrder) (h : fetchLoop up fuel none [] = .ok os)
    (hne : ¬ os.isEmpty) (hval : ¬ (os.filterMap normalize).isEmpty) :
    buildBatch up fuel =
      some (.ok ⟨os.filterMap normalize, os.countP fun o => (normalize o).isNone⟩) ∧
    (os.filterMap normalize).length + os.countP (fun o => (normalize o).isNone) = os.length := by
  refine ⟨?_, normalize_length_split os⟩
  simp [buildBatch, h, hne, hval]

/-- C3, witness (Scenario A): page 1 returns the two valid records, page 2
(final) returns the record missing a title; the batch has exactly 2 events
and a skip count of 1. -/
theorem c3_batch_skip_count_witness :
    (buildBatch c3up 3 =
      some (.ok ⟨[c3valid1, c3valid2, c3bad].filterMap normalize,
                 [c3valid1, c3valid2, c3bad].countP fun o => (normalize o).isNone⟩) ∧
      ([c3valid1, c3valid2, c3bad].filterMap normalize).length +
        [c3valid1, c3valid2, c3bad].countP (fun o => (normalize o).isNone) =
        [c3valid1, c3valid2, c3bad].length) ∧
    ([c3valid1, c3valid2, c3bad].filterMap normalize).length = 2 ∧
    [c3valid1, c3valid2, c3bad].countP (fun o => (normalize o).isNone) = 1 :=
  ⟨c3_batch_skip_count c3up 3 [c3valid1, c3valid2, c3bad] (by decide) (by decide) (by decide),
   by decide, by decide⟩

/-- C4, counterexample: `c4raw` has no description text, no order
reference, no attendees, and an empty defaulted URL — no optional section
has source data — yet the produced description is not empty: the code
appends the `Order Information:` header and `Order #: N/A` unconditionally
(src/app.py lines 230-231) and the `Event URL:` line unconditionally even
for an empty URL (line 244), contradicting the claim that a section with
no content never appears. -/
theorem c4_counterexample :
    (normalize c4raw).map (fun ce => ce.description) =
      some "\nOrder Information:\nOrder #: N/A\n\nEvent URL: " ∧
    c4raw.reference = none ∧
    c4raw.attendees = [] ∧
    (c4raw.event.map fun e => e.description_text) = some none ∧
    (c4raw.event.map fun e => e.url) = some none := by decide

/-- C4, amended: for every record that normalizes, the description is the
newline-join of: the raw description text only if truthy, then always an
`Order Information:` header and an `Order #:` line with the reference
defaulting to `N/A`, then a `Ticket Information:` section only if the
attendees list is non-empty (one line per attendee with a truthy
ticket-class name), then always a trailing `Event URL:` line (an absent
URL rendered as the empty string).  Section headers carry a leading
newline, which yields the blank-line separation. -/
theorem c4_description_assembly (order : RawOrder) (event : RawEvent)
    (he : order.event = some event) (ce : CanonicalEvent)
    (h : normalize order = some ce) :
    ce.description = String.intercalate "\n"
      ((if truthyS event.description_text then [event.description_text.getD ""] else [])
       ++ ["\nOrder Information:", "Order #: " ++ order.reference.getD "N/A"]
       ++ (if order.attendees.isEmpty then []
           else "\nTicket Information:" ::
             order.attendees.filterMap (fun attendee =>
               if truthyS attendee.ticket_class_name then
                 some (" - " ++ ("Type: " ++ attendee.ticket_class_name.getD ""))
               else none))
       ++ ["\nEvent URL: " ++ event.url.getD ""]) := by
  obtain ⟨nt, st, et, u, v, dt⟩ := event
  simp only [normalize, he] at h
  cases nt with
  | none => simp at h
  | some name =>
    cases st with
    | none => simp at h
    | some s =>
      cases hps : parseDT s with
      | none => simp [hps] at h
      | some sd =>
        cases et with
        | none => simp [hps] at h
        | some e2 =>
          cases hpe : parseDT e2 with
          | none => simp [hps, hpe] at h
          | some ed =>
            simp only [hps, hpe, Option.some.injEq] at h
            subst h
            rfl

/-- C4, witness for the amended theorem at the concrete record `c4raw`. -/
theorem c4_description_assembly_witness :
    c4canon.description = String.intercalate "\n"
      ((if truthyS c4event.description_text then [c4event.description_text.getD ""] else [])
       ++ ["\nOrder Information:", "Order #: " ++ c4raw.reference.getD "N/A"]
       ++ (if c4raw.attendees.isEmpty then []
           else "\nTicket Information:" ::
             c4raw.attendees.filterMap (fun attendee =>
               if truthyS attendee.ticket_class_name then
                 some (" - " ++ ("Type: " ++ attendee.ticket_class_name.getD ""))
               else none))
       ++ ["\nEvent URL: " ++ c4event.url.getD ""]) :=
  c4_description_assembly c4raw c4event rfl c4canon (by decide)

/-- C5, counterexample: `c5raw` has a venue with a name (`The Hall`) and a
city (`Paris`); the claim's join over {venue name, …, city, …} would give
`The Hall, Paris`, but the code joins only the six address fields
(src/app.py line 217) — the venue name is never read — producing `Paris`
alone. -/
theorem c5_counterexample :
    (normalize c5raw).map (fun ce => ce.location) = some (some "Paris") ∧
    ((c5raw.event.bind fun e => e.venue).bind fun w => w.name) = some "The Hall" ∧
    (some "Paris" : Option String) ≠ some ("The Hall" ++ ", " ++ "Paris") := by decide

/-- C5, amended: for every record that normalizes, location is set only
when a venue object is present and is the comma-join of exactly the
non-empty fields among {address line 1, address line 2, city, region,
postal code, country} of the venue's address, in that order — the venue
name is never included — and stays unset (`none`, not an empty string)
when no component is non-empty.  A venue with only a city populated yields
the city string alone. -/
theorem c5_location_assembly (order : RawOrder) (event : RawEvent)
    (he : order.event = some event) (ce : CanonicalEvent)
    (h : normalize order = some ce) :
    ce.location =
      (match event.venue with
       | none => none
       | some venue =>
         let venue_address := venue.address.getD ⟨none, none, none, none, none, none⟩
         let address_parts :=
           [venue_address.address_1, venue_address.address_2, venue_address.city,
            venue_address.region, venue_address.postal_code,
            venue_address.country].filterMap
             (fun f => if truthyS f then f else none)
         if address_parts.isEmpty then none
         else some (String.intercalate ", " address_parts)) := by
  obtain ⟨nt, st, et, u, v, dt⟩ := event
  simp only [normalize, he] at h
  cases nt with
  | none => simp at h
  | some name =>
    cases st with
    | none => simp at h
    | some s =>
      cases hps : parseDT s with
      | none => simp [hps] at h
      | some sd =>
        cases et with
        | none => simp [hps] at h
        | some e2 =>
          cases hpe : parseDT e2 with
          | none => simp [hps, hpe] at h
          | some ed =>
            simp only [hps, hpe, Option.some.injEq] at h
            subst h
            rfl

/-- C5, witness for the amended theorem at the concrete record `c5raw`
(Scenario D): the venue has only a city populated and the location is the
city string alone, with no separators. -/
theorem c5_location_assembly_witness :
    c5canon.location =
      (match c5event.venue with
       | none => none
       | some venue =>
         let venue_address := venue.address.getD ⟨none, none, none, none, none, none⟩
         let address_parts :=
           [venue_address.address_1, venue_address.address_2, venue_address.city,
            venue_address.region, venue_address.postal_code,
            venue_address.country].filterMap
             (fun f => if truthyS f then f else none)
         if address_parts.isEmpty then none
         else some (String.intercalate ", " address_parts)) ∧
    c5canon.location = some "Paris" :=
  ⟨c5_location_assembly c5raw c5event rfl c5canon (by decide), by decide⟩

/-- C6: if any cursor actually requested by the pagination loop is
answered with a non-success status, the loop's result is the upstream
error with that status and body — whatever records had been accumulated
before (the result is the same for every accumulator, so earlier pages are
discarded) — and `buildBatch` propagates it as `UpstreamError`: no batch
and no calendar document, partial or otherwise, is produced
(src/app.py lines 165-169). -/
theorem c6_upstream_error_aborts (up : Option String → PageResponse) (fuel : Nat)
    (d : Option String) (hmem : d ∈ fetchTrace up fuel none)
    (hbad : (up d).status_code ≠ 200) :
    (∀ acc, fetchLoop up fuel none acc = .httpError (up d).status_code (up d).body_text) ∧
    buildBatch up fuel = some (.error (.upstream (up d).status_code (up d).body_text)) := by
  have h1 := fetchLoop_mem_httpError up fuel none d hmem hbad
  exact ⟨h1, by simp only [buildBatch, h1 []]⟩

/-- C6, witness (Scenario C): page one succeeds with one record, page two
answers HTTP 401; the loop aborts with status 401 and body `unauthorized`
for every accumulator, and `buildBatch` fails with the upstream error. -/
theorem c6_upstream_error_aborts_witness :
    (∀ acc, fetchLoop c6up 2 none acc = .httpError 401 "unauthorized") ∧
    buildBatch c6up 2 = some (.error (.upstream 401 "unauthorized")) := by
  have h := c6_upstream_error_aborts c6up 2 (some "c6page2") (by decide) (by decide)
  exact h

/-- C7: when the pagination loop completes normally, `buildBatch` fails
with the `No tickets found` error (the spec's `EmptyBatchError`,
src/app.py lines 183-185) exactly when the fetched pages contained zero
records in total, and with the distinct `No valid events found` error (the
spec's `NoValidEventsError`, lines 254-256) exactly when at least one
record was returned but every one failed normalization; neither condition
is ever reported as an upstream error. -/
theorem c7_nothing_to_export (up : Option String → PageResponse) (fuel : Nat)
    (os : List RawOrder) (h : fetchLoop up fuel none [] = .ok os) :
    (buildBatch up fuel = some (.error .noTickets) ↔ os = []) ∧
    (buildBatch up fuel = some (.error .noValidEvents) ↔
      os ≠ [] ∧ os.filterMap normalize = []) ∧
    (∀ s b, buildBatch up fuel ≠ some (.error (.upstream s b))) := by
  simp only [buildBatch, h]
  by_cases hemp : os.isEmpty
  · have hnil : os = [] := by simpa using hemp
    subst hnil
    simp
  · have hne : os ≠ [] := by simpa using hemp
    by_cases hval : (os.filterMap normalize).isEmpty
    · have hv : os.filterMap normalize = [] := by simpa using hval
      simp [hemp, hval, hne, hv]
    · have hv : os.filterMap normalize ≠ [] := by simpa using hval
      simp [hemp, hval, hne, hv]

/-- C7, witness: a run whose single page carries zero records yields the
`No tickets found` error (Scenario B), and a run whose single record fails
normalization yields the distinct `No valid events found` error; both
instantiate the theorem. -/
theorem c7_nothing_to_export_witness :
    ((buildBatch c7upEmpty 1 = some (.error .noTickets) ↔ ([] : List RawOrder) = []) ∧
      (buildBatch c7upEmpty 1 = some (.error .noValidEvents) ↔
        ([] : List RawOrder) ≠ [] ∧ ([] : List RawOrder).filterMap normalize = []) ∧
      (∀ s b, buildBatch c7upEmpty 1 ≠ some (.error (.upstream s b)))) ∧
    ((buildBatch c7upInvalid 1 = some (.error .noTickets) ↔ [c7bad] = []) ∧
      (buildBatch c7upInvalid 1 = some (.error .noValidEvents) ↔
        [c7bad] ≠ [] ∧ [c7bad].filterMap normalize = []) ∧
      (∀ s b, buildBatch c7upInvalid 1 ≠ some (.error (.upstream s b)))) ∧
    buildBatch c7upEmpty 1 = some (.error .noTickets) ∧
    buildBatch c7upInvalid 1 = some (.error .noValidEvents) :=
  ⟨c7_nothing_to_export c7upEmpty 1 [] (by decide),
   c7_nothing_to_export c7upInvalid 1 [c7bad] (by decide),
   by decide, by decide⟩

/-- C8: whenever the pagination loop completes normally — i.e. the chain
of continuation cursors starting from the initial request reaches a page
carrying the no-more-pages sentinel (a falsy continuation token) — the
sequence of cursors actually requested has no duplicates (no cursor is
requested twice), is not extended by any additional fuel (no page is
requested after the sentinel page: the loop terminates there), and its
last requested cursor is exactly the sentinel page. -/
theorem c8_pagination_terminates (up : Option String → PageResponse) (fuel : Nat)
    (os : List RawOrder) (h : fetchLoop up fuel none [] = .ok os) :
    (fetchTrace up fuel none).Nodup ∧
    (∀ m, fuel ≤ m → fetchTrace up m none = fetchTrace up fuel none) ∧
    (∃ d, (fetchTrace up fuel none).getLast? = some d ∧ contOf (up d) = none) := by
  refine ⟨fetchTrace_nodup up fuel none os h, ?_,
    fetchTrace_last_sentinel up fuel none [] os h⟩
  intro m hm
  exact (fetchLoop_ok_of_le up hm h).2

/-- C8, witness: three pages chained by distinct continuation tokens; the
request trace is `[none, c8page2, c8page3]`, duplicate-free, stable under
extra fuel, and ends at the sentinel page. -/
theorem c8_pagination_terminates_witness :
    ((fetchTrace c8up 5 none).Nodup ∧
      (∀ m, 5 ≤ m → fetchTrace c8up m none = fetchTrace c8up 5 none) ∧
      (∃ d, (fetchTrace c8up 5 none).getLast? = some d ∧ contOf (c8up d) = none)) ∧
    fetchTrace c8up 5 none = [none, some "c8page2", some "c8page3"] :=
  ⟨c8_pagination_terminates c8up 5 [c6raw, c2raw] (by decide), by decide⟩

/-- C9: (spec-modelled encoder) two `encode` calls on the same ordered
sequence of events yield byte-identical documents, whatever the ambient
wall clock and random seed at each call: the output draws on nothing but
the event sequence.  The serialization in the code is `str(calendar)` from
the third-party `ics` library (src/app.py lines 260-262), outside this
repository's source, so the encoder is modelled from spec §4.4/§8. -/
theorem c9_encode_deterministic (ctx1 ctx2 : EncodeCtx) (events : List CanonicalEvent) :
    encodeAtCtx ctx1 events = encodeAtCtx ctx2 events ∧
    encodeAtCtx ctx1 events = encode events :=
  ⟨rfl, rfl⟩

/-- C10: a page fetch answered with a success status but whose body lacks
a truthy `orders` list (no key, `null`, or an empty list) does not abort
the batch: the loop step contributes zero records (the accumulator is
passed on unchanged) and continues — or stops — exactly according to that
page's continuation marker (src/app.py lines 171-181). -/
theorem c10_missing_orders_tolerated (up : Option String → PageResponse) (fuel : Nat)
    (c : Option String) (h200 : (up c).status_code = 200)
    (hmiss : (up c).orders = none ∨ (up c).orders = some []) :
    ∀ acc, fetchLoop up (fuel + 1) c acc =
      (match contOf (up c) with
       | none => .ok acc
       | some t => fetchLoop up fuel (some t) acc) := by
  intro acc
  have hord : ordersOf (up c) = [] := by
    rcases hmiss with hm | hm <;> simp [ordersOf, hm]
  rw [fetchLoop_succ, if_neg (by simp [h200])]
  cases hcont : contOf (up c) with
  | none => simp [hord]
  | some t => simp [hord]

/-- C10, witness: page one is a success response with no `orders` key and
a continuation token; the loop continues to page two with an unchanged
accumulator and the whole run still succeeds with page two's record. -/
theorem c10_missing_orders_tolerated_witness :
    (∀ acc, fetchLoop c10up 2 none acc =
      (match contOf (c10up none) with
       | none => .ok acc
       | some t => fetchLoop c10up 1 (some t) acc)) ∧
    fetchLoop c10up 2 none [] = .ok [c6raw] ∧
    (c10up none).orders = none :=
  ⟨c10_missing_orders_tolerated c10up 1 none (by decide) (Or.inl (by decide)),
   by decide, by decide⟩

end App
